import Mathlib

/-! The generator of the CPU table, make_db.go.

A shallow embedding of `make_db.go` (package main of the cpuidb repository).
Go strings are Lean strings; the Go standard library and the `cpuidb` package,
which the file only calls, enter through the fields of `Env`.  Effects are made
explicit: the log and the parser calls are a trace of events, the output file
lives in a map from paths to contents, `log.Fatal` ends a run with status 1.
-/

set_option linter.unusedVariables false

namespace MakeDB

/-! ## Values shared with the Go runtime -/

/-- Go error value, identified with the text its Error method returns. -/
structure GoError where
  Error : String
  deriving DecidableEq, Repr

deriving instance DecidableEq for Except

/-- Substring test of strings.Contains, on the characters of the two texts. -/
def Contains (s substr : String) : Prop := substr.data <:+: s.data

instance (s substr : String) : Decidable (Contains s substr) := by
  unfold Contains; infer_instance

/-! ## strings.Replace -/

/-- Scan of strings.Replace for a non-empty `old` and no limit on the number of
replacements: `skip` counts the characters of a matched occurrence still to be
passed over; at skip 0 an occurrence starting here is replaced by `new` and the
scan resumes right after it, any other character is copied. -/
def replaceFrom (old new : List Char) : Nat → List Char → List Char
  | _, [] => []
  | skip + 1, _ :: cs => replaceFrom old new skip cs
  | 0, c :: cs =>
    if old.isPrefixOf (c :: cs) then new ++ replaceFrom old new (old.length - 1) cs
    else c :: replaceFrom old new 0 cs

/-- The call strings.Replace(s, old, new, -1): every non-overlapping occurrence of
`old`, found left to right, is replaced by `new`; an empty `old` matches before
every character and at the end.  Go searches bytes; on UTF-8 text an occurrence
of a UTF-8 `old` starts and ends at character boundaries, so the search is done
on characters. -/
def Replace (s old new : String) : String :=
  if old.data = [] then ⟨new.data ++ s.data.flatMap (fun c => c :: new.data)⟩
  else ⟨replaceFrom old.data new.data 0 s.data⟩

/-! ## path/filepath.Glob

The Go standard library documents: "Glob ignores file system errors such as I/O
errors reading directories. The only possible returned error is ErrBadPattern,
when pattern is malformed."  The definitions below follow its source (Unix path
conventions) over the primitives of `GlobDeps`. -/

/-- What path/filepath.Glob rests on. -/
structure GlobDeps where
  /-- filepath.Match(pattern, name) -/
  Match : String → String → Except GoError Bool
  /-- whether os.Lstat(path) succeeds -/
  Lstat : String → Bool
  /-- the names Readdirnames delivers for a directory, none when the path cannot
  be opened and read as a directory (os.Stat or os.Open fails, or it is no
  directory) -/
  readDirNames : String → Option (List String)
  /-- filepath.Join of two elements -/
  Join : String → String → String

/-- The error filepath.ErrBadPattern. -/
def ErrBadPattern : GoError := ⟨"syntax error in pattern"⟩

/-- Whether the path contains one of the magic characters of Match. -/
def hasMeta (path : String) : Bool :=
  path.data.any (fun c => c == '*' || c == '?' || c == '[' || c == '\\')

/-- Split of a path after its final slash, on the reversed text: the characters
taken are the file part, those left the directory part. -/
def splitRev : List Char → List Char → List Char × List Char
  | [], file => ([], file)
  | c :: rest, file => if c == '/' then ((c :: rest).reverse, file) else splitRev rest (c :: file)

/-- The function filepath.Split: directory part (with its final slash) and file part. -/
def Split (path : String) : String × String :=
  let r := splitRev path.data.reverse []
  (⟨r.1⟩, ⟨r.2⟩)

/-- The function cleanGlobPath: the directory part prepared for globbing. -/
def cleanGlobPath (path : String) : String :=
  if path = "" then "." else if path = "/" then path else ⟨path.data.dropLast⟩

/-- Order of Go strings (bytewise, here by code point). -/
def strLE : List Char → List Char → Bool
  | [], _ => true
  | _ :: _, [] => false
  | a :: as, b :: bs => a.toNat < b.toNat || (a == b && strLE as bs)

/-- The loop of glob over the sorted names of a directory. -/
def globNames (d : GlobDeps) (dir pattern : String) :
    List String → List String → Except GoError (List String)
  | [], m => .ok m
  | n :: rest, m =>
    match d.Match pattern n with
    | .error err => .error err
    | .ok matched => globNames d dir pattern rest (if matched then m ++ [d.Join dir n] else m)

/-- The function glob of path/filepath: searches for files matching pattern in the
directory dir and appends them to matches.  If the directory cannot be opened, it
returns the existing matches. -/
def glob (d : GlobDeps) (dir pattern : String) (found : List String) :
    Except GoError (List String) :=
  match d.readDirNames dir with
  | none => .ok found
  | some names =>
    globNames d dir pattern
      (names.insertionSort (fun a b => strLE a.data b.data = true)) found

/-- The loop of globWithLimit over the directories matched so far. -/
def globDirs (d : GlobDeps) (file : String) :
    List String → List String → Except GoError (List String)
  | [], m => .ok m
  | dir :: rest, m =>
    match glob d dir file m with
    | .error err => .error err
    | .ok m => globDirs d file rest m

/-- The function globWithLimit; `fuel` is 10000 minus its argument depth. -/
def globWithLimit (d : GlobDeps) : Nat → String → Except GoError (List String)
  | 0, _ => .error ErrBadPattern
  | fuel + 1, pattern =>
    match d.Match pattern "" with
    | .error err => .error err
    | .ok _ =>
      if !hasMeta pattern then
        (if d.Lstat pattern then .ok [pattern] else .ok [])
      else
        let dir := cleanGlobPath (Split pattern).1
        let file := (Split pattern).2
        if !hasMeta dir then glob d dir file []
        else if dir = pattern then .error ErrBadPattern
        else
          match globWithLimit d fuel dir with
          | .error err => .error err
          | .ok m => globDirs d file m []

/-- The function filepath.Glob. -/
def filepathGlob (d : GlobDeps) (pattern : String) : Except GoError (List String) :=
  globWithLimit d 10000 pattern

/-! ## The environment of a run -/

/-- One observable step of a run. -/
inductive Event where
  /-- a call cpuidb.ParseCPUFile(filename) -/
  | parseCall (filename : String)
  /-- a line written by log.Printf -/
  | printf (line : String)
  /-- the line written by log.Fatal, after which the process exits with status 1 -/
  | fatal (line : String)
  deriving DecidableEq, Repr

/-- Everything make_db.go reads from outside: the two flags, the name of the
running file, and the library functions it calls.  `CPU` is the record type
cpuidb.CPU. -/
structure Env (CPU : Type) where
  /-- value of the flag -src -/
  src : String
  /-- value of the flag -out -/
  out : String
  /-- the result of filepath.Base(self), self being the file runtime.Caller(0) reports -/
  selfBase : String
  /-- filepath.Join of two elements -/
  Join : String → String → String
  /-- filepath.Glob -/
  Glob : String → Except GoError (List String)
  /-- cpuidb.ParseCPUFile -/
  ParseCPUFile : String → Except GoError CPU
  /-- the text fmt.Sprintf("%#v", *cpu) -/
  GoSyntax : CPU → String
  /-- format.Source -/
  formatSource : String → Except GoError String
  /-- the error of os.Create(path), none when the file was created or truncated -/
  createErr : String → Option GoError
  /-- the fault of the Write on the output file for the given bytes: none when
  all of them are written, otherwise the number written and the error returned -/
  writeFault : String → Option (Nat × GoError)

/-- Contents of the regular files, by path. -/
abbrev Files := String → Option String

/-- The file map with the content at `path` replaced. -/
def Files.set (fs : Files) (path : String) (content : String) : Files :=
  fun p => if p = path then some content else fs p

/-- What a function that may call log.Fatal leaves behind: its events, and its
result unless the process was ended. -/
structure Run (α : Type) where
  trace : List Event
  result : Option α

/-- The end of a run of main: the events, the files and the exit status. -/
structure Final where
  trace : List Event
  files : Files
  exit : Nat

/-- The parser calls recorded in a trace. -/
def parseCalls (tr : List Event) : List String :=
  tr.filterMap (fun e => match e with | .parseCall f => some f | _ => none)

/-- The lines log.Printf wrote, as recorded in a trace. -/
def warnings (tr : List Event) : List String :=
  tr.filterMap (fun e => match e with | .printf l => some l | _ => none)

/-! ## make_db.go -/

section Source

variable {CPU : Type}

/-- CPUIDFiles returns a list of all files in the given directory containing CPUID data. -/
def CPUIDFiles (env : Env CPU) (dir : String) : Except GoError (List String) :=
  env.Glob (env.Join dir "*CPUID*.txt")

/-- The range loop of ParseCPUIDFiles over the file names still to visit, with the
slice `cpus` and the events so far. -/
def parseLoop (env : Env CPU) : List String → List CPU × List Event → List CPU × List Event
  | [], st => st
  | filename :: rest, (cpus, tr) =>
    match env.ParseCPUFile filename with
    | .error err =>
      parseLoop env rest
        (cpus, tr ++ [.parseCall filename,
                      .printf ("failed to parse " ++ filename ++ ": " ++ err.Error)])
    | .ok cpu => parseLoop env rest (cpus ++ [cpu], tr ++ [.parseCall filename])

/-- ParseCPUIDFiles parses all CPUID files in a directory. Errors are logged.
The body lists the files of the flag -src; the parameter `dir` is not read. -/
def ParseCPUIDFiles (env : Env CPU) (dir : String) : Run (List CPU) :=
  match CPUIDFiles env env.src with
  | .error err => ⟨[.fatal err.Error], none⟩
  | .ok filenames =>
    let st := parseLoop env filenames ([], [])
    ⟨st.2, some st.1⟩

/-- CPUGoSyntax returns Go code for the given struct. -/
def CPUGoSyntax (env : Env CPU) (cpu : CPU) : String :=
  Replace (env.GoSyntax cpu) "cpuidb." ""

/-- Build Go source code that defines the given list of CPUs. Output not formatted.
The buffer `w` is threaded through the five Fprintf sites. -/
def Build (env : Env CPU) (cpus : List CPU) : String :=
  let w := ""
  let w := w ++ ("// Code generated by go run " ++ env.selfBase ++ ". DO NOT EDIT.\n\n")
  let w := w ++ "package cpuidb\n\n"
  let w := w ++ "var CPUs = []CPU\x7b\n"
  let w := cpus.foldl (fun w cpu => w ++ (CPUGoSyntax env cpu ++ ",\n")) w
  w ++ "\x7d\n"

/-- Output: write formatted Go code that initializes the given CPU list to a
writer.  The writer is its state `w` and its Write method, which returns the
next state and the error. -/
def Output (env : Env CPU) {σ : Type} (Write : σ → String → σ × Option GoError)
    (w : σ) (cpus : List CPU) : σ × Option GoError :=
  match env.formatSource (Build env cpus) with
  | .error err => (w, some err)
  | .ok code => Write w code

/-- Write on the file opened at `path`: the bytes accepted are appended to the
content of the file. -/
def fileWrite (env : Env CPU) (path : String) (fs : Files) (p : String) :
    Files × Option GoError :=
  let old := (fs path).getD ""
  match env.writeFault p with
  | none => (fs.set path (old ++ p), none)
  | some (n, err) => (fs.set path (old ++ ⟨p.data.take n⟩), some err)

/-- The function main, run on the files `fs`. -/
def main (env : Env CPU) (fs : Files) : Final :=
  match ParseCPUIDFiles env env.src with
  | ⟨tr, none⟩ => ⟨tr, fs, 1⟩
  | ⟨tr, some cpus⟩ =>
    match env.createErr env.out with
    | some err => ⟨tr ++ [.fatal err.Error], fs, 1⟩
    | none =>
      let f := fs.set env.out ""
      match Output env (fileWrite env env.out) f cpus with
      | (f, some err) => ⟨tr ++ [.fatal err.Error], f, 1⟩
      | (f, none) => ⟨tr, f, 0⟩

end Source

/-! ## Concrete worlds -/

/-- Modelled from the spec: the record type cpuidb.CPU is declared outside
make_db.go; the spec names a record by its vendor string and its family
(Record{Vendor:"GenuineIntel", Family:6}). -/
structure SpecCPU where
  Vendor : String
  Family : Nat
  deriving DecidableEq, Repr

/-- Modelled from the spec: the text of fmt.Sprintf("%#v", cpu) for the record of
the spec, the struct literal qualified by its package, with the vendor between
double quotes (vendor texts without quote, backslash or control characters,
which strconv.Quote leaves as they are). -/
def SpecCPU.GoSyntax (cpu : SpecCPU) : String :=
  "cpuidb.CPU\x7bVendor:\"" ++ cpu.Vendor ++ "\", Family:" ++ toString cpu.Family ++ "\x7d"

/-- A name against the rest of a pattern after a star: the star takes any run of
characters other than the slash. -/
def starSkip (k : List Char → Bool) : List Char → Bool
  | [] => k []
  | c :: n => k (c :: n) || (c != '/' && starSkip k n)

/-- The function filepath.Match on patterns made of literal characters and stars
(no question mark, bracket or backslash), which are never malformed. -/
def starMatch : List Char → List Char → Bool
  | [], n => n.isEmpty
  | p :: ps, n =>
    if p == '*' then starSkip (starMatch ps) n
    else
      match n with
      | [] => false
      | c :: cs => p == c && starMatch ps cs

/-- The primitives of Glob over the given directory listings, for paths in clean
form and without question mark, bracket or backslash. -/
def exampleDeps (dirs : String → Option (List String)) : GlobDeps where
  Match pattern name := .ok (starMatch pattern.data name.data)
  Lstat _ := false
  readDirNames := dirs
  Join dir name := dir ++ "/" ++ name

/-- A world for the examples: flags -src source -out db.go, the generator
make_db.go, the Glob of the standard library over the given directory listings,
and an output file that can be created and written. -/
def exampleEnv (dirs : String → Option (List String))
    (parseFile : String → Except GoError SpecCPU)
    (fmt : String → Except GoError String) : Env SpecCPU where
  src := "source"
  out := "db.go"
  selfBase := "make_db.go"
  Join := (exampleDeps dirs).Join
  Glob := filepathGlob (exampleDeps dirs)
  ParseCPUFile := parseFile
  GoSyntax := SpecCPU.GoSyntax
  formatSource := fmt
  createErr _ := none
  writeFault _ := none

/-- Directory listings of the scenario of the spec, and a second directory. -/
def scenarioDirs : String → Option (List String) := fun dir =>
  if dir = "source" then some ["README.md", "B_CPUID.txt", "A_CPUID.txt"]
  else if dir = "other" then some ["C_CPUID.txt"]
  else none

/-- The parser of the scenario of the spec: A_CPUID.txt is valid, B_CPUID.txt corrupt. -/
def scenarioParse : String → Except GoError SpecCPU := fun filename =>
  if filename = "source/A_CPUID.txt" then .ok ⟨"GenuineIntel", 6⟩
  else if filename = "other/C_CPUID.txt" then .ok ⟨"AuthenticAMD", 23⟩
  else .error ⟨"corrupt dump"⟩

/-- A formatter that accepts every text and returns it as it is. -/
def acceptAll : String → Except GoError String := fun s => .ok s

/-- A formatter that rejects every text. -/
def rejectAll : String → Except GoError String := fun _ => .error ⟨"expected operand"⟩

/-- The scenario of the spec. -/
def scenarioEnv : Env SpecCPU := exampleEnv scenarioDirs scenarioParse acceptAll

/-- No file at all. -/
def noFiles : Files := fun _ => none

/-- An output file left by an earlier run. -/
def oldFiles : Files := fun p => if p = "db.go" then some "package cpuidb\n" else none

/-! ## The batch: ParseCPUIDFiles -/

section Batch

variable {CPU : Type}

/-- The record of a file, when the parser accepts it. -/
def recordOf (env : Env CPU) (filename : String) : Option CPU :=
  match env.ParseCPUFile filename with
  | .ok cpu => some cpu
  | .error _ => none

/-- The warning for a file, when the parser rejects it. -/
def warningOf (env : Env CPU) (filename : String) : Option String :=
  match env.ParseCPUFile filename with
  | .ok _ => none
  | .error err => some ("failed to parse " ++ filename ++ ": " ++ err.Error)

/-- The events one file contributes: the parser call, then its warning if any. -/
def fileEvents (env : Env CPU) (filename : String) : List Event :=
  .parseCall filename :: ((warningOf env filename).map Event.printf).toList

theorem parseLoop_eq (env : Env CPU) (filenames : List String) (cpus : List CPU)
    (tr : List Event) :
    parseLoop env filenames (cpus, tr)
      = (cpus ++ filenames.filterMap (recordOf env), tr ++ filenames.flatMap (fileEvents env)) := by
  induction filenames generalizing cpus tr with
  | nil => simp [parseLoop]
  | cons f rest ih =>
    cases h : env.ParseCPUFile f with
    | error err =>
      simp [parseLoop, h, ih, recordOf, warningOf, fileEvents, List.filterMap_cons]
    | ok cpu =>
      simp [parseLoop, h, ih, recordOf, warningOf, fileEvents, List.filterMap_cons]

theorem ParseCPUIDFiles_ok (env : Env CPU) (dir : String) (filenames : List String)
    (hloc : CPUIDFiles env env.src = .ok filenames) :
    ParseCPUIDFiles env dir
      = ⟨filenames.flatMap (fileEvents env), some (filenames.filterMap (recordOf env))⟩ := by
  simp [ParseCPUIDFiles, hloc, parseLoop_eq]

theorem parseCalls_fileEvents (env : Env CPU) (filenames : List String) :
    parseCalls (filenames.flatMap (fileEvents env)) = filenames := by
  induction filenames with
  | nil => rfl
  | cons f rest ih =>
    unfold parseCalls at ih ⊢
    cases h : warningOf env f <;>
      simp [fileEvents, h, List.filterMap_cons, List.filterMap_append, ih]

theorem warnings_fileEvents (env : Env CPU) (filenames : List String) :
    warnings (filenames.flatMap (fileEvents env)) = filenames.filterMap (warningOf env) := by
  induction filenames with
  | nil => rfl
  | cons f rest ih =>
    unfold warnings at ih ⊢
    cases h : warningOf env f <;>
      simp [fileEvents, h, List.filterMap_cons, List.filterMap_append, ih]

theorem filterMap_recordOf_length (env : Env CPU) (filenames : List String) :
    (filenames.filterMap (recordOf env)).length
      = (filenames.filter (fun f => (recordOf env f).isSome)).length := by
  induction filenames with
  | nil => rfl
  | cons f rest ih =>
    cases h : recordOf env f <;> simp [List.filterMap_cons, List.filter_cons, h, ih]

end Batch

/-! ## The emitter: Build -/

section Emit

variable {CPU : Type}

theorem foldl_append_eq (g : CPU → String) (cpus : List CPU) (w : String) :
    cpus.foldl (fun w cpu => w ++ g cpu) w = w ++ String.join (cpus.map g) := by
  induction cpus generalizing w with
  | nil => simp [String.join]
  | cons c rest ih =>
    have hj : ∀ (l : List String) (a : String),
        l.foldl (fun r s => r ++ s) a = a ++ l.foldl (fun r s => r ++ s) "" := by
      intro l
      induction l with
      | nil => intro a; simp
      | cons x xs ihx =>
        intro a
        simp only [List.foldl_cons]
        rw [ihx (a ++ x), ihx ("" ++ x)]
        simp [String.append_assoc]
    simp only [List.foldl_cons, List.map_cons, String.join]
    rw [ih, hj (List.map g rest) ("" ++ g c)]
    simp [String.join, String.append_assoc]

theorem Build_eq (env : Env CPU) (cpus : List CPU) :
    Build env cpus
      = "// Code generated by go run " ++ env.selfBase ++ ". DO NOT EDIT.\n\n"
        ++ "package cpuidb\n\n"
        ++ "var CPUs = []CPU\x7b\n"
        ++ String.join (cpus.map (fun cpu => CPUGoSyntax env cpu ++ ",\n"))
        ++ "\x7d\n" := by
  simp [Build, foldl_append_eq, String.append_assoc]

end Emit

/-! ## The writer and the entry point -/

section Run

variable {CPU : Type}

/-- A writer that also keeps the bytes of every Write it receives. -/
def recording {σ : Type} (Write : σ → String → σ × Option GoError) :
    σ × List String → String → (σ × List String) × Option GoError :=
  fun w p => (((Write w.1 p).1, w.2 ++ [p]), (Write w.1 p).2)

/-- Whether the event is the line of log.Fatal. -/
def Event.isFatal : Event → Bool
  | .fatal _ => true
  | _ => false

theorem fileEvents_not_fatal (env : Env CPU) (filenames : List String) :
    ∀ e ∈ filenames.flatMap (fileEvents env), e.isFatal = false := by
  intro e he
  rcases List.mem_flatMap.1 he with ⟨f, _, hf⟩
  cases h : warningOf env f with
  | none =>
    simp [fileEvents, h] at hf
    subst hf; rfl
  | some l =>
    simp [fileEvents, h] at hf
    rcases hf with hf | hf <;> subst hf <;> rfl

theorem filterMap_recordOf_nil (env : Env CPU) (filenames : List String)
    (hfail : ∀ f ∈ filenames, ∃ err, env.ParseCPUFile f = .error err) :
    filenames.filterMap (recordOf env) = [] := by
  rw [List.filterMap_eq_nil_iff]
  intro f hf
  obtain ⟨err, herr⟩ := hfail f hf
  simp [recordOf, herr]

theorem Files.set_same (fs : Files) (path content : String) :
    fs.set path content path = some content := by
  simp [Files.set]

theorem Files.set_set (fs : Files) (path a b : String) :
    (fs.set path a).set path b = fs.set path b := by
  funext p
  by_cases h : p = path <;> simp [Files.set, h]

theorem main_written (env : Env CPU) (fs : Files) (tr : List Event) (cpus : List CPU)
    (code : String)
    (hparse : ParseCPUIDFiles env env.src = ⟨tr, some cpus⟩)
    (hcreate : env.createErr env.out = none)
    (hfmt : env.formatSource (Build env cpus) = .ok code)
    (hwrite : env.writeFault code = none) :
    main env fs = ⟨tr, fs.set env.out code, 0⟩ := by
  simp [main, hparse, hcreate, Output, hfmt, fileWrite, hwrite, Files.set_same, Files.set_set]

theorem main_format_rejected (env : Env CPU) (fs : Files) (tr : List Event) (cpus : List CPU)
    (err : GoError)
    (hparse : ParseCPUIDFiles env env.src = ⟨tr, some cpus⟩)
    (hcreate : env.createErr env.out = none)
    (hfmt : env.formatSource (Build env cpus) = .error err) :
    main env fs = ⟨tr ++ [.fatal err.Error], fs.set env.out "", 1⟩ := by
  simp [main, hparse, hcreate, Output, hfmt]

theorem main_locate_failed (env : Env CPU) (fs : Files) (err : GoError)
    (hloc : CPUIDFiles env env.src = .error err) :
    main env fs = ⟨[.fatal err.Error], fs, 1⟩ := by
  simp [main, ParseCPUIDFiles, hloc]

end Run

/-! ## strings.Replace with an empty replacement -/

section Strip

/-- The characters of the package qualifier. -/
def qualifier : List Char := "cpuidb.".data

/-- A piece of a %#v rendering: the package qualifier that %#v writes in front of
a type name of package cpuidb, or any other text (syntax, type and field names,
the text of field values).  Field text that spells cpuidb. is text, never a
qualifier. -/
inductive Piece where
  | qualifier
  | text (s : String)
  deriving DecidableEq, Repr

/-- The characters a piece contributes to the rendering. -/
def Piece.chars : Piece → List Char
  | .qualifier => MakeDB.qualifier
  | .text s => s.data

/-- The characters a piece contributes once the qualifiers are left out. -/
def Piece.plain : Piece → List Char
  | .qualifier => []
  | .text s => s.data

/-- The rendering made of the pieces. -/
def renderPieces (ps : List Piece) : String := ⟨ps.flatMap Piece.chars⟩

/-- The rendering made of the pieces with every package qualifier left out. -/
def unqualified (ps : List Piece) : String := ⟨ps.flatMap Piece.plain⟩

/-- Modelled from the spec: the pieces of the rendering of the record of the spec,
the one package qualifier in front of the type name and the rest of the literal,
the vendor text included. -/
def SpecCPU.pieces (cpu : SpecCPU) : List Piece :=
  [.qualifier,
   .text ("CPU\x7bVendor:\"" ++ cpu.Vendor ++ "\", Family:" ++ toString cpu.Family ++ "\x7d")]

theorem SpecCPU.GoSyntax_pieces (cpu : SpecCPU) :
    SpecCPU.GoSyntax cpu = renderPieces (SpecCPU.pieces cpu) := by
  apply String.ext
  simp [SpecCPU.GoSyntax, renderPieces, SpecCPU.pieces, Piece.chars, String.data_append,
    qualifier]

/-- The record with vendor cpuidb.X has the qualifier text inside its field text,
not as a package qualifier. -/
theorem SpecCPU.vendor_text_not_qualifier :
    Contains (unqualified (SpecCPU.pieces ⟨"cpuidb.X", 6⟩)) "cpuidb." := by
  decide

end Strip

/-! ## path/filepath.Glob and I/O errors -/

section GlobErrors

theorem glob_unreadable (d : GlobDeps) (dir pattern : String) (found : List String)
    (h : d.readDirNames dir = none) : glob d dir pattern found = .ok found := by
  simp [glob, h]

theorem filepathGlob_unreadable (d : GlobDeps) (pattern : String)
    (hwf : ∃ b, d.Match pattern "" = .ok b)
    (hmeta : hasMeta pattern = true)
    (hdir : hasMeta (cleanGlobPath (Split pattern).1) = false)
    (hun : d.readDirNames (cleanGlobPath (Split pattern).1) = none) :
    filepathGlob d pattern = .ok [] := by
  obtain ⟨b, hb⟩ := hwf
  show globWithLimit d (9999 + 1) pattern = .ok []
  simp [globWithLimit, hb, hmeta, hdir, glob_unreadable d _ _ [] hun]

theorem globNames_error (d : GlobDeps) (dir pattern : String) (err : GoError) :
    ∀ (names found : List String), globNames d dir pattern names found = .error err →
      ∃ p n, d.Match p n = .error err := by
  intro names
  induction names with
  | nil => intro found h; simp [globNames] at h
  | cons n rest ih =>
    intro found h
    cases hm : d.Match pattern n with
    | error e =>
      simp [globNames, hm] at h
      exact ⟨pattern, n, by rw [hm, h]⟩
    | ok b =>
      simp only [globNames, hm] at h
      exact ih _ h

theorem glob_error (d : GlobDeps) (dir pattern : String) (found : List String)
    (err : GoError) (h : glob d dir pattern found = .error err) :
    ∃ p n, d.Match p n = .error err := by
  cases hr : d.readDirNames dir with
  | none => simp [glob, hr] at h
  | some names =>
    simp only [glob, hr] at h
    exact globNames_error d dir pattern err _ _ h

theorem globDirs_error (d : GlobDeps) (file : String) (err : GoError) :
    ∀ (dirs found : List String), globDirs d file dirs found = .error err →
      ∃ p n, d.Match p n = .error err := by
  intro dirs
  induction dirs with
  | nil => intro found h; simp [globDirs] at h
  | cons dir rest ih =>
    intro found h
    cases hg : glob d dir file found with
    | error e =>
      simp [globDirs, hg] at h
      exact glob_error d dir file found err (by rw [hg, h])
    | ok m =>
      simp only [globDirs, hg] at h
      exact ih _ h

theorem globWithLimit_error (d : GlobDeps) (err : GoError) :
    ∀ (fuel : Nat) (pattern : String), globWithLimit d fuel pattern = .error err →
      err = ErrBadPattern ∨ ∃ p n, d.Match p n = .error err := by
  intro fuel
  induction fuel with
  | zero =>
    intro pattern h
    simp [globWithLimit] at h
    exact Or.inl h.symm
  | succ fuel ih =>
    intro pattern h
    cases hm : d.Match pattern "" with
    | error e =>
      simp [globWithLimit, hm] at h
      exact Or.inr ⟨pattern, "", by rw [hm, h]⟩
    | ok b =>
      simp only [globWithLimit, hm] at h
      split at h
      · split at h <;> simp at h
      · split at h
        · exact Or.inr (glob_error d _ _ _ err h)
        · split at h
          · simp at h
            exact Or.inl h.symm
          · cases hrec : globWithLimit d fuel (cleanGlobPath (Split pattern).1) with
            | error e =>
              simp [hrec] at h
              exact ih _ (by rw [hrec, h])
            | ok m =>
              simp only [hrec] at h
              exact Or.inr (globDirs_error d _ err _ _ h)

end GlobErrors

/-! ## A pattern that Glob rejects -/

/-- The primitives of Glob with a Match that reports a pattern holding an opening
bracket and no closing one as malformed. -/
def bracketDeps : GlobDeps where
  Match pattern name :=
    if pattern.data.contains '[' && !pattern.data.contains ']' then .error ErrBadPattern
    else .ok (starMatch pattern.data name.data)
  Lstat _ := false
  readDirNames := scenarioDirs
  Join dir name := dir ++ "/" ++ name

/-- A run started with the flag -src set to an opening bracket. -/
def bracketEnv : Env SpecCPU where
  src := "["
  out := "db.go"
  selfBase := "make_db.go"
  Join := bracketDeps.Join
  Glob := filepathGlob bracketDeps
  ParseCPUFile := scenarioParse
  GoSyntax := SpecCPU.GoSyntax
  formatSource := acceptAll
  createErr _ := none
  writeFault _ := none

/-- The scenario of the spec with every file corrupt. -/
def allCorruptEnv : Env SpecCPU :=
  exampleEnv scenarioDirs (fun _ => .error ⟨"corrupt dump"⟩) acceptAll

/-- The scenario of the spec with a formatter that rejects the generated text. -/
def rejectEnv : Env SpecCPU := exampleEnv scenarioDirs scenarioParse rejectAll

/-- The scenario of the spec with no directory that can be opened or read. -/
def unreadableEnv : Env SpecCPU := exampleEnv (fun _ => none) scenarioParse acceptAll

section Claims

variable {CPU : Type}

/-- C1: when the files are located, ParseCPUIDFiles returns exactly the records of
the files that parse, in the order the files were located; their number K is the
number of files that parse, at most the number N of files; and the text of Build
for that result is the opening lines, then the K literals of those records in the
same order, each followed by a comma and a line end, then the closing brace. -/
theorem ParseCPUIDFiles_records_in_order (env : Env CPU) (dir : String)
    (filenames : List String) (hloc : CPUIDFiles env env.src = .ok filenames) :
    (ParseCPUIDFiles env dir).result = some (filenames.filterMap (recordOf env))
    ∧ (filenames.filterMap (recordOf env)).length
        = (filenames.filter (fun f => (recordOf env f).isSome)).length
    ∧ (filenames.filterMap (recordOf env)).length ≤ filenames.length
    ∧ ((filenames.filterMap (recordOf env)).map (CPUGoSyntax env)).length
        = (filenames.filter (fun f => (recordOf env f).isSome)).length
    ∧ Build env (filenames.filterMap (recordOf env))
        = "// Code generated by go run " ++ env.selfBase ++ ". DO NOT EDIT.\n\n"
          ++ "package cpuidb\n\n"
          ++ "var CPUs = []CPU\x7b\n"
          ++ String.join
              (((filenames.filterMap (recordOf env)).map (CPUGoSyntax env)).map
                (fun entry => entry ++ ",\n"))
          ++ "\x7d\n" := by
  refine ⟨?_, filterMap_recordOf_length env filenames, List.length_filterMap_le _ _, ?_, ?_⟩
  · rw [ParseCPUIDFiles_ok env dir filenames hloc]
  · rw [List.length_map]
    exact filterMap_recordOf_length env filenames
  · rw [Build_eq, List.map_map]
    rfl

/-- The scenario of the spec: of the two located files the first parses, and its record is the result. -/
theorem ParseCPUIDFiles_records_in_order_witness :
    CPUIDFiles scenarioEnv scenarioEnv.src
        = .ok ["source/A_CPUID.txt", "source/B_CPUID.txt"]
    ∧ (ParseCPUIDFiles scenarioEnv "source").result
        = some (["source/A_CPUID.txt", "source/B_CPUID.txt"].filterMap (recordOf scenarioEnv))
    ∧ ["source/A_CPUID.txt", "source/B_CPUID.txt"].filterMap (recordOf scenarioEnv)
        = [⟨"GenuineIntel", 6⟩] :=
  ⟨by decide,
   (ParseCPUIDFiles_records_in_order scenarioEnv "source"
      ["source/A_CPUID.txt", "source/B_CPUID.txt"] (by decide)).1,
   by decide⟩

/-- C2: for every sequence of records, Build is exactly the header line naming the
generator, a blank line, the package line, a blank line, the opening line of the
table, then for each record in input order its literal followed by a comma and a
line end, then the closing brace and a line end. -/
theorem Build_exact_text (env : Env CPU) (cpus : List CPU) :
    Build env cpus
      = "// Code generated by go run " ++ env.selfBase ++ ". DO NOT EDIT.\n\n"
        ++ "package cpuidb\n\n"
        ++ "var CPUs = []CPU\x7b\n"
        ++ String.join (cpus.map (fun cpu => CPUGoSyntax env cpu ++ ",\n"))
        ++ "\x7d\n" :=
  Build_eq env cpus

/-- C3: when the files are located, ParseCPUIDFiles ends without log.Fatal and with
a result, calls the parser on every file in file order, and logs exactly the
warnings of the failing files, in file order, each made of the file name and the
error of the parser, and none for a file that parses. -/
theorem ParseCPUIDFiles_warns_and_continues (env : Env CPU) (dir : String)
    (filenames : List String) (hloc : CPUIDFiles env env.src = .ok filenames) :
    (ParseCPUIDFiles env dir).result.isSome = true
    ∧ (∀ e ∈ (ParseCPUIDFiles env dir).trace, e.isFatal = false)
    ∧ parseCalls (ParseCPUIDFiles env dir).trace = filenames
    ∧ warnings (ParseCPUIDFiles env dir).trace
        = filenames.filterMap (fun f =>
            match env.ParseCPUFile f with
            | .ok _ => none
            | .error err => some ("failed to parse " ++ f ++ ": " ++ err.Error)) := by
  rw [ParseCPUIDFiles_ok env dir filenames hloc]
  refine ⟨rfl, fileEvents_not_fatal env filenames, parseCalls_fileEvents env filenames, ?_⟩
  exact warnings_fileEvents env filenames

/-- The scenario of the spec: both files are handed to the parser, the corrupt one is warned about. -/
theorem ParseCPUIDFiles_warns_and_continues_witness :
    CPUIDFiles scenarioEnv scenarioEnv.src
        = .ok ["source/A_CPUID.txt", "source/B_CPUID.txt"]
    ∧ parseCalls (ParseCPUIDFiles scenarioEnv "source").trace
        = ["source/A_CPUID.txt", "source/B_CPUID.txt"]
    ∧ warnings (ParseCPUIDFiles scenarioEnv "source").trace
        = ["failed to parse source/B_CPUID.txt: corrupt dump"] :=
  ⟨by decide,
   (ParseCPUIDFiles_warns_and_continues scenarioEnv "source"
      ["source/A_CPUID.txt", "source/B_CPUID.txt"] (by decide)).2.2.1,
   by decide⟩

/-- C4: when no file is located, and also when every located file fails to parse,
ParseCPUIDFiles returns the empty sequence without log.Fatal, and the text of Build
is the header, the package line and the empty table; if moreover the formatter
accepts that text and the output file can be created and written, main ends with
status 0 and without log.Fatal, the output file holding the formatted text. -/
theorem empty_batch_gives_empty_table (env : Env CPU) (fs : Files) (dir : String)
    (filenames : List String) (hloc : CPUIDFiles env env.src = .ok filenames)
    (hnone : filenames = [] ∨ ∀ f ∈ filenames, ∃ err, env.ParseCPUFile f = .error err) :
    (ParseCPUIDFiles env dir).result = some []
    ∧ (∀ e ∈ (ParseCPUIDFiles env dir).trace, e.isFatal = false)
    ∧ Build env []
        = "// Code generated by go run " ++ env.selfBase ++ ". DO NOT EDIT.\n\n"
          ++ "package cpuidb\n\n" ++ "var CPUs = []CPU\x7b\n\x7d\n"
    ∧ (∀ code, env.formatSource (Build env []) = .ok code →
        env.createErr env.out = none → env.writeFault code = none →
          (main env fs).exit = 0
          ∧ (∀ e ∈ (main env fs).trace, e.isFatal = false)
          ∧ (main env fs).files env.out = some code) := by
  have hrec : filenames.filterMap (recordOf env) = [] := by
    rcases hnone with h | h
    · subst h; rfl
    · exact filterMap_recordOf_nil env filenames h
  have hrun := ParseCPUIDFiles_ok env dir filenames hloc
  have hmain := ParseCPUIDFiles_ok env env.src filenames hloc
  rw [hrec] at hrun hmain
  refine ⟨by rw [hrun], ?_, ?_, ?_⟩
  · rw [hrun]
    exact fileEvents_not_fatal env filenames
  · rw [Build_eq]
    simp [String.join, String.append_assoc]
  · intro code hfmt hcreate hwrite
    rw [main_written env fs _ [] code hmain hcreate hfmt hwrite]
    exact ⟨rfl, fileEvents_not_fatal env filenames, Files.set_same fs env.out code⟩

/-- The scenario of the spec with both files corrupt: the result is empty and main ends with status 0. -/
theorem empty_batch_gives_empty_table_witness :
    CPUIDFiles allCorruptEnv allCorruptEnv.src
        = .ok ["source/A_CPUID.txt", "source/B_CPUID.txt"]
    ∧ (ParseCPUIDFiles allCorruptEnv "source").result = some []
    ∧ (main allCorruptEnv oldFiles).exit = 0 :=
  have h := empty_batch_gives_empty_table allCorruptEnv oldFiles "source"
    ["source/A_CPUID.txt", "source/B_CPUID.txt"] (by decide)
    (Or.inr (fun _ _ => ⟨⟨"corrupt dump"⟩, rfl⟩))
  ⟨by decide, h.1, (h.2.2.2 _ rfl rfl rfl).1⟩

/-- C5: for every sequence of records and every writer, Output writes only after
formatting has succeeded: when the formatter rejects the text of Build, Output
returns the error of the formatter and the writer has received no Write and keeps
its state; when it accepts, the writer has received exactly one Write, of the
formatted text, and Output returns the error result of that Write. -/
theorem Output_writes_once_after_format (env : Env CPU) {σ : Type}
    (Write : σ → String → σ × Option GoError) (w : σ) (cpus : List CPU) :
    Output env (recording Write) (w, []) cpus
        = (match env.formatSource (Build env cpus) with
           | .error err => ((w, []), some err)
           | .ok code => (((Write w code).1, [code]), (Write w code).2))
    ∧ (Output env (recording Write) (w, []) cpus).1.1 = (Output env Write w cpus).1
    ∧ (Output env (recording Write) (w, []) cpus).2 = (Output env Write w cpus).2 := by
  unfold Output
  cases env.formatSource (Build env cpus) <;> simp [recording]

/-- C6 (claim as stated fails): with an output file left by an earlier run and a
formatter that rejects the generated text, main ends with status 1 and the output
file no longer has the content it had before the run: it is empty. -/
theorem main_truncates_before_format :
    rejectEnv.formatSource (Build rejectEnv [⟨"GenuineIntel", 6⟩])
        = .error ⟨"expected operand"⟩
    ∧ (main rejectEnv oldFiles).exit = 1
    ∧ oldFiles rejectEnv.out = some "package cpuidb\n"
    ∧ (main rejectEnv oldFiles).files rejectEnv.out = some ""
    ∧ (main rejectEnv oldFiles).files rejectEnv.out ≠ oldFiles rejectEnv.out := by
  decide

/-- C6 (amended): if the files are located, the output file is created or truncated
and formatting the generated text then fails, main ends with log.Fatal of the
error of the formatter and status 1, and no byte is written: the file at the
output path is left empty and every other file is as before the run. -/
theorem main_format_failure_writes_nothing (env : Env CPU) (fs : Files)
    (filenames : List String) (err : GoError)
    (hloc : CPUIDFiles env env.src = .ok filenames)
    (hcreate : env.createErr env.out = none)
    (hfmt : env.formatSource (Build env (filenames.filterMap (recordOf env))) = .error err) :
    (main env fs).exit = 1
    ∧ (main env fs).trace = filenames.flatMap (fileEvents env) ++ [.fatal err.Error]
    ∧ (main env fs).files env.out = some ""
    ∧ ∀ p, p ≠ env.out → (main env fs).files p = fs p := by
  rw [main_format_rejected env fs _ _ err (ParseCPUIDFiles_ok env env.src filenames hloc)
    hcreate hfmt]
  refine ⟨rfl, rfl, Files.set_same fs env.out "", ?_⟩
  intro p hp
  simp [Files.set, hp]

/-- The scenario of the spec with a rejecting formatter: status 1 and an empty output file. -/
theorem main_format_failure_writes_nothing_witness :
    CPUIDFiles rejectEnv rejectEnv.src = .ok ["source/A_CPUID.txt", "source/B_CPUID.txt"]
    ∧ (main rejectEnv oldFiles).exit = 1
    ∧ (main rejectEnv oldFiles).files rejectEnv.out = some "" :=
  have h := main_format_failure_writes_nothing rejectEnv oldFiles
    ["source/A_CPUID.txt", "source/B_CPUID.txt"] ⟨"expected operand"⟩
    (by decide) (by decide) (by decide)
  ⟨by decide, h.1, h.2.2.1⟩

/-- C8 (claim as stated fails): when no directory can be opened or read, the source
directory included, CPUIDFiles returns the empty list and no error, the text
handed to the formatter is the empty table, and main ends with status 0 and
without log.Fatal, leaving an output file. -/
theorem unreadable_source_gives_empty_table :
    (exampleDeps (fun _ => none)).readDirNames unreadableEnv.src = none
    ∧ CPUIDFiles unreadableEnv unreadableEnv.src = .ok []
    ∧ (ParseCPUIDFiles unreadableEnv unreadableEnv.src).result = some []
    ∧ Build unreadableEnv []
        = "// Code generated by go run make_db.go. DO NOT EDIT.\n\n"
            ++ "package cpuidb\n\n" ++ "var CPUs = []CPU\x7b\n\x7d\n"
    ∧ (main unreadableEnv noFiles).exit = 0
    ∧ (main unreadableEnv noFiles).trace = []
    ∧ ((main unreadableEnv noFiles).files unreadableEnv.out).isSome = true := by
  decide

/-- C8 (amended): if CPUIDFiles returns an error for the source directory, main
ends with log.Fatal of that error and status 1 before anything else happens (no
parser call, no warning, the files as before the run).  With the Glob of the
standard library such an error is ErrBadPattern or an error of Match, never a
failure to read a directory; and when the pattern for the source directory is
well formed, its directory part has no metacharacter and cannot be opened or
read, CPUIDFiles returns the empty list and no error, ParseCPUIDFiles returns the
empty sequence without any event, and main, provided the formatter accepts the
text of the empty table and the output file can be created and written, ends with
status 0 and the formatted empty table in the output file. -/
theorem main_fatal_only_on_pattern_error (env : Env CPU) (fs : Files) :
    (∀ err, CPUIDFiles env env.src = .error err →
        (ParseCPUIDFiles env env.src).result = none
        ∧ (main env fs).exit = 1
        ∧ (main env fs).trace = [.fatal err.Error]
        ∧ (main env fs).files = fs)
    ∧ (∀ d : GlobDeps, env.Glob = filepathGlob d →
        (∀ err, CPUIDFiles env env.src = .error err →
            err = ErrBadPattern ∨ ∃ p n, d.Match p n = .error err)
        ∧ ((∃ b, d.Match (env.Join env.src "*CPUID*.txt") "" = .ok b) →
            hasMeta (env.Join env.src "*CPUID*.txt") = true →
            hasMeta (cleanGlobPath (Split (env.Join env.src "*CPUID*.txt")).1) = false →
            d.readDirNames (cleanGlobPath (Split (env.Join env.src "*CPUID*.txt")).1) = none →
              CPUIDFiles env env.src = .ok []
              ∧ (ParseCPUIDFiles env env.src).result = some []
              ∧ (ParseCPUIDFiles env env.src).trace = []
              ∧ ∀ code, env.formatSource (Build env []) = .ok code →
                  env.createErr env.out = none → env.writeFault code = none →
                    (main env fs).exit = 0
                    ∧ (main env fs).trace = []
                    ∧ (main env fs).files env.out = some code)) := by
  refine ⟨?_, ?_⟩
  · intro err hloc
    rw [main_locate_failed env fs err hloc]
    simp [ParseCPUIDFiles, hloc]
  · intro d hd
    refine ⟨?_, ?_⟩
    · intro err hloc
      simp only [CPUIDFiles, hd, filepathGlob] at hloc
      exact globWithLimit_error d err _ _ hloc
    · intro hwf hmeta hdir hun
      have hloc : CPUIDFiles env env.src = .ok [] := by
        simp only [CPUIDFiles, hd]
        exact filepathGlob_unreadable d _ hwf hmeta hdir hun
      have hrun := ParseCPUIDFiles_ok env env.src [] hloc
      simp only [List.flatMap_nil, List.filterMap_nil] at hrun
      refine ⟨hloc, by rw [hrun], by rw [hrun], ?_⟩
      intro code hfmt hcreate hwrite
      rw [main_written env fs [] [] code hrun hcreate hfmt hwrite]
      exact ⟨rfl, rfl, Files.set_same fs env.out code⟩

/-- The flag -src set to an opening bracket: Glob reports the malformed pattern and
main ends with status 1.  The scenario of the spec with no directory that can be
opened or read: no error, the empty list, status 0. -/
theorem main_fatal_only_on_pattern_error_witness :
    CPUIDFiles bracketEnv bracketEnv.src = .error ErrBadPattern
    ∧ (main bracketEnv oldFiles).exit = 1
    ∧ (main bracketEnv oldFiles).trace = [.fatal "syntax error in pattern"]
    ∧ (exampleDeps (fun _ => none)).readDirNames
        (cleanGlobPath (Split (unreadableEnv.Join unreadableEnv.src "*CPUID*.txt")).1) = none
    ∧ CPUIDFiles unreadableEnv unreadableEnv.src = .ok []
    ∧ (main unreadableEnv noFiles).exit = 0 :=
  have h1 := (main_fatal_only_on_pattern_error bracketEnv oldFiles).1 ErrBadPattern (by decide)
  have h2 := ((main_fatal_only_on_pattern_error unreadableEnv noFiles).2
    (exampleDeps (fun _ => none)) rfl).2 ⟨false, by decide⟩ (by decide) (by decide) (by decide)
  ⟨by decide, h1.2.1, h1.2.2.1, by decide, h2.1, (h2.2.2.2 _ rfl rfl rfl).1⟩

/-- C9 (the code at the failing input): with the flag -src naming the directory
source, ParseCPUIDFiles called on the directory other returns the record of the
file of source and calls the parser on the files of source only, although
CPUIDFiles of other returns the one file of other, which parses to another record. -/
theorem ParseCPUIDFiles_reads_flag_not_argument :
    scenarioEnv.src = "source"
    ∧ CPUIDFiles scenarioEnv "other" = .ok ["other/C_CPUID.txt"]
    ∧ scenarioEnv.ParseCPUFile "other/C_CPUID.txt" = .ok ⟨"AuthenticAMD", 23⟩
    ∧ (ParseCPUIDFiles scenarioEnv "other").result = some [⟨"GenuineIntel", 6⟩]
    ∧ parseCalls (ParseCPUIDFiles scenarioEnv "other").trace
        = ["source/A_CPUID.txt", "source/B_CPUID.txt"] := by
  decide

/-- C10 (the code at the failing input): the records with vendor cpuidb.X and with
vendor X differ, the rendering of the first holds its vendor text between quotes,
and CPUGoSyntax returns the same literal for both, the one with vendor X. -/
theorem CPUGoSyntax_strips_field_text :
    (⟨"cpuidb.X", 6⟩ : SpecCPU) ≠ ⟨"X", 6⟩
    ∧ Contains (scenarioEnv.GoSyntax ⟨"cpuidb.X", 6⟩) "Vendor:\"cpuidb.X\""
    ∧ CPUGoSyntax scenarioEnv ⟨"cpuidb.X", 6⟩ = "CPU\x7bVendor:\"X\", Family:6\x7d"
    ∧ ¬ Contains (CPUGoSyntax scenarioEnv ⟨"cpuidb.X", 6⟩) "Vendor:\"cpuidb.X\""
    ∧ CPUGoSyntax scenarioEnv ⟨"cpuidb.X", 6⟩ = CPUGoSyntax scenarioEnv ⟨"X", 6⟩ := by
  decide

end Claims

end MakeDB
